import Mathlib

/-!
Shallow embedding of the snake game in src/Snake.py.

The whole simulation lives in one function, game_loop.  We embed its
mutable locals as a GameState record and one iteration of the gameplay
while-loop (lines 152-240) as the function tick.  Randomness
(random.randrange draws for food placement) is embedded as an explicit
list of pending draws, so the unbounded rejection-sampling loops become
functions that scan that list; spawnLoop returning none models the loop
still running after the supplied draws are exhausted.
-/

namespace Snake

/-- SCREEN_WIDTH constant from line 21 of the source (pixels). -/
def SCREEN_WIDTH : Int := 800

/-- SCREEN_HEIGHT constant from line 22 of the source (pixels). -/
def SCREEN_HEIGHT : Int := 600

/-- SNAKE_BLOCK_SIZE constant from line 25 of the source. -/
def SNAKE_BLOCK_SIZE : Int := 20

/-- A grid cell, the [x, y] pairs stored in snake_segments and the food
coordinates.  Coordinates are in pixels, aligned to SNAKE_BLOCK_SIZE. -/
structure Cell where
  x : Int
  y : Int
deriving DecidableEq

/-- The four arrow keys handled by the KEYDOWN branch of the event drain
(lines 160-175). -/
inductive Key where
  | left
  | right
  | up
  | down
deriving DecidableEq

/-- The key whose movement is the exact opposite of the given key. -/
def oppositeKey : Key → Key
  | Key.left => Key.right
  | Key.right => Key.left
  | Key.up => Key.down
  | Key.down => Key.up

/-- The (snake_x_change, snake_y_change) pair that the source assigns for
each accepted arrow key (lines 161-174). -/
def keyVec : Key → Int × Int
  | Key.left => (-SNAKE_BLOCK_SIZE, 0)
  | Key.right => (SNAKE_BLOCK_SIZE, 0)
  | Key.up => (0, -SNAKE_BLOCK_SIZE)
  | Key.down => (0, SNAKE_BLOCK_SIZE)

/-- The direction-related locals of game_loop: snake_x_change,
snake_y_change (lines 133-134) and last_key_pressed (line 135). -/
structure DirState where
  snake_x_change : Int
  snake_y_change : Int
  last_key_pressed : Key
deriving DecidableEq

/-- One KEYDOWN arrow event processed by the if/elif chain of
lines 160-175: the change is applied unless the pressed key is blocked
by the recorded last_key_pressed. -/
def processKey (s : DirState) (k : Key) : DirState :=
  match k with
  | Key.left =>
      if s.last_key_pressed ≠ Key.right then
        ⟨-SNAKE_BLOCK_SIZE, 0, Key.left⟩
      else s
  | Key.right =>
      if s.last_key_pressed ≠ Key.left then
        ⟨SNAKE_BLOCK_SIZE, 0, Key.right⟩
      else s
  | Key.up =>
      if s.last_key_pressed ≠ Key.down then
        ⟨0, -SNAKE_BLOCK_SIZE, Key.up⟩
      else s
  | Key.down =>
      if s.last_key_pressed ≠ Key.up then
        ⟨0, SNAKE_BLOCK_SIZE, Key.down⟩
      else s

/-- The event drain of lines 154-175: every pending arrow KEYDOWN event
is inspected in order and processed against the current DirState. -/
def drainEvents (s : DirState) (ks : List Key) : DirState :=
  ks.foldl processKey s

/-- Outcome of one tick's collision evaluation.  The source only records
game_is_over, but evaluates the wall test (line 183) before the
self-collision test (lines 196-199), which yields this classification. -/
inductive Outcome where
  | Ok
  | WallHit
  | SelfHit
deriving DecidableEq

/-- Collision classification: wall test of line 183 evaluated first,
then the self-collision test of lines 196-199 over the body cells
(snake_segments without its last element, the newly appended head). -/
def check (head : Cell) (width height : Int) (body : List Cell)
    (length : Nat) : Outcome :=
  if head.x ≥ width ∨ head.x < 0 ∨ head.y ≥ height ∨ head.y < 0 then
    Outcome.WallHit
  else if 1 < length ∧ head ∈ body then
    Outcome.SelfHit
  else
    Outcome.Ok

/-- One pair of random.randrange draws (lines 143-144, 148-149, 222-223)
turned into a grid-aligned cell: randrange(0, W // B) * B paired with
randrange(0, H // B) * B. -/
def drawCell (d : Nat × Nat) : Cell :=
  ⟨(d.1 : Int) * SNAKE_BLOCK_SIZE, (d.2 : Int) * SNAKE_BLOCK_SIZE⟩

/-- The rejection-sampling loops of lines 147-149 and 221-231: keep
drawing until the drawn cell is not on the excluded cells.  The draws
list is the stream of pending random values; none means the loop is
still spinning when the stream runs out. -/
def spawnLoop (excluded : List Cell) : List (Nat × Nat) → Option Cell
  | [] => none
  | d :: rest =>
      if drawCell d ∈ excluded then spawnLoop excluded rest
      else some (drawCell d)

/-- Lines 186-192: append the new head to snake_segments, then delete
the oldest element when the list has grown past snake_current_length. -/
def settleSegments (segs : List Cell) (head : Cell) (n : Nat) : List Cell :=
  if n < (segs ++ [head]).length then (segs ++ [head]).tail
  else segs ++ [head]

/-- The mutable locals of game_loop that the gameplay loop touches
(lines 129-149). -/
structure GameState where
  snake_x : Int
  snake_y : Int
  dir : DirState
  snake_segments : List Cell
  snake_current_length : Nat
  current_player_score : Nat
  food_x : Int
  food_y : Int
  game_is_over : Bool
deriving DecidableEq

/-- The food coordinates of a state as a cell. -/
def foodCell (g : GameState) : Cell := ⟨g.food_x, g.food_y⟩

/-- The head coordinates of a state as a cell. -/
def headCell (g : GameState) : Cell := ⟨g.snake_x, g.snake_y⟩

/-- Direction state after the tick's event drain (lines 154-175). -/
def tickDir (g : GameState) (events : List Key) : DirState :=
  drainEvents g.dir events

/-- New snake_x after line 178. -/
def tickX (g : GameState) (events : List Key) : Int :=
  g.snake_x + (tickDir g events).snake_x_change

/-- New snake_y after line 179. -/
def tickY (g : GameState) (events : List Key) : Int :=
  g.snake_y + (tickDir g events).snake_y_change

/-- The snake_head_pos cell built on line 187. -/
def tickHead (g : GameState) (events : List Key) : Cell :=
  ⟨tickX g events, tickY g events⟩

/-- snake_segments after the append/trim of lines 186-192. -/
def tickSegs (g : GameState) (events : List Key) : List Cell :=
  settleSegments g.snake_segments (tickHead g events) g.snake_current_length

/-- The tick's collision classification: wall test of line 183 and
self test of lines 196-199 over snake_segments[:-1]. -/
def tickOutcome (g : GameState) (events : List Key) : Outcome :=
  check (tickHead g events) SCREEN_WIDTH SCREEN_HEIGHT
    (tickSegs g events).dropLast g.snake_current_length

/-- One iteration of the gameplay while-loop (lines 152-240): drain
events, move the head, settle the segments, test collisions (break with
game_is_over on a hit, before the food logic), otherwise run the food
consumption logic of lines 217-234.  draws feeds the respawn loop;
none models that loop still spinning after draws is exhausted. -/
def tick (g : GameState) (events : List Key) (draws : List (Nat × Nat)) :
    Option GameState :=
  if tickOutcome g events ≠ Outcome.Ok then
    some { g with
      snake_x := tickX g events
      snake_y := tickY g events
      dir := tickDir g events
      snake_segments := tickSegs g events
      game_is_over := true }
  else if tickX g events = g.food_x ∧ tickY g events = g.food_y then
    match spawnLoop (tickSegs g events) draws with
    | none => none
    | some c =>
        some { g with
          snake_x := tickX g events
          snake_y := tickY g events
          dir := tickDir g events
          snake_segments := tickSegs g events
          food_x := c.x
          food_y := c.y
          snake_current_length := g.snake_current_length + 1
          current_player_score := g.current_player_score + 10 }
  else
    some { g with
      snake_x := tickX g events
      snake_y := tickY g events
      dir := tickDir g events
      snake_segments := tickSegs g events }

/-- Initial snake_x of line 129: (800 / 2 // 20) * 20 = 400. -/
def init_snake_x : Int := ((SCREEN_WIDTH / 2) / SNAKE_BLOCK_SIZE) * SNAKE_BLOCK_SIZE

/-- Initial snake_y of line 130: (600 / 2 // 20) * 20 = 300. -/
def init_snake_y : Int := ((SCREEN_HEIGHT / 2) / SNAKE_BLOCK_SIZE) * SNAKE_BLOCK_SIZE

/-- The gameplay initialization of lines 127-149: fresh locals, and the
initial food placement loop that redraws while the food coincides with
the initial snake position. -/
def initGame (draws : List (Nat × Nat)) : Option GameState :=
  match spawnLoop [⟨init_snake_x, init_snake_y⟩] draws with
  | none => none
  | some c =>
      some ⟨init_snake_x, init_snake_y, ⟨SNAKE_BLOCK_SIZE, 0, Key.right⟩,
        [], 1, 0, c.x, c.y, false⟩

/-- Pressing C on the game-over screen (lines 258-264) re-invokes
game_loop, whose gameplay section rebuilds every local from scratch;
the previous session's state is a dead local frame. -/
def replayGame (prev : GameState) (draws : List (Nat × Nat)) :
    Option GameState :=
  initGame draws

/-- Every cell of the 40 x 30 food grid that randrange can produce. -/
def fullGridCells : List Cell :=
  (List.range 40).flatMap fun i =>
    (List.range 30).map fun j => drawCell (i, j)

/-- Segment-count invariant that holds between ticks: the list is at
its target length, or one short of it right after a growth tick. -/
def SegInv (g : GameState) : Prop :=
  g.snake_segments.length = g.snake_current_length ∨
  g.snake_segments.length + 1 = g.snake_current_length

/-- Food invariant that holds between ticks: the food cell is on no
snake cell (neither the stored segments nor the head coordinates), the
length is at least 1, and the food is inside the screen. -/
def FoodInv (g : GameState) : Prop :=
  foodCell g ∉ g.snake_segments ∧
  foodCell g ≠ headCell g ∧
  1 ≤ g.snake_current_length ∧
  0 ≤ g.food_x ∧ g.food_x < SCREEN_WIDTH ∧
  0 ≤ g.food_y ∧ g.food_y < SCREEN_HEIGHT

/-- Score invariant that holds between ticks: the score is 10 times the
number of food items eaten, which is snake_current_length - 1. -/
def ScoreInv (g : GameState) : Prop :=
  1 ≤ g.snake_current_length ∧
  g.current_player_score = 10 * (g.snake_current_length - 1)

/-- A draw pair that randrange(0, 800 // 20), randrange(0, 600 // 20)
can actually produce. -/
def ValidDraws (draws : List (Nat × Nat)) : Prop :=
  ∀ d ∈ draws, d.1 < 40 ∧ d.2 < 30

end Snake

namespace Snake

lemma settle_length (segs : List Cell) (head : Cell) (n : Nat)
    (h : segs.length = n ∨ segs.length + 1 = n) :
    (settleSegments segs head n).length = n := by
  unfold settleSegments
  split_ifs with hlt
  · simp only [List.length_tail, List.length_append, List.length_singleton] at *
    omega
  · simp only [List.length_append, List.length_singleton] at *
    omega

lemma dropLast_append_single (l : List Cell) (a : Cell) :
    (l ++ [a]).dropLast = l := by
  simpa using List.dropLast_concat (l := l) (b := a)

lemma mem_settle {a head : Cell} {segs : List Cell} {n : Nat}
    (h : a ∈ settleSegments segs head n) : a ∈ segs ∨ a = head := by
  unfold settleSegments at h
  split_ifs at h with hlt
  · have h2 : a ∈ segs ++ [head] := List.tail_subset (segs ++ [head]) h
    simpa using h2
  · simpa using h

lemma mem_dropLast_settle {a head : Cell} {segs : List Cell} {n : Nat}
    (h : a ∈ (settleSegments segs head n).dropLast) : a ∈ segs := by
  unfold settleSegments at h
  split_ifs at h with hlt
  · cases segs with
    | nil => simp at h
    | cons b bs =>
        simp only [List.cons_append, List.tail_cons,
          dropLast_append_single] at h
        exact List.mem_cons_of_mem _ h
  · rwa [dropLast_append_single] at h

lemma head_mem_settle (head : Cell) (segs : List Cell) (n : Nat)
    (hn : 1 ≤ n) : head ∈ settleSegments segs head n := by
  unfold settleSegments
  split_ifs with hlt
  · cases segs with
    | nil => simp at hlt; omega
    | cons b bs => simp
  · simp

lemma spawnLoop_not_excluded {excluded : List Cell} {c : Cell} :
    ∀ {draws : List (Nat × Nat)}, spawnLoop excluded draws = some c →
      c ∉ excluded := by
  intro draws
  induction draws with
  | nil => intro h; exact Option.noConfusion h
  | cons d rest ih =>
      intro h
      unfold spawnLoop at h
      split_ifs at h with hmem
      · exact ih h
      · injection h with h
        subst h
        exact hmem

lemma spawnLoop_mem_draws {excluded : List Cell} {c : Cell} :
    ∀ {draws : List (Nat × Nat)}, spawnLoop excluded draws = some c →
      ∃ d ∈ draws, c = drawCell d := by
  intro draws
  induction draws with
  | nil => intro h; exact Option.noConfusion h
  | cons d rest ih =>
      intro h
      unfold spawnLoop at h
      split_ifs at h with hmem
      · obtain ⟨d2, hd2, hc⟩ := ih h
        exact ⟨d2, List.mem_cons_of_mem _ hd2, hc⟩
      · injection h with h
        exact ⟨d, List.mem_cons_self _ _, h.symm⟩

lemma check_ne_ok {head : Cell} {w hgt : Int} {body : List Cell} {n : Nat}
    (hc : check head w hgt body n ≠ Outcome.Ok) :
    (head.x ≥ w ∨ head.x < 0 ∨ head.y ≥ hgt ∨ head.y < 0) ∨ head ∈ body := by
  unfold check at hc
  split_ifs at hc with h1 h2
  · exact Or.inl h1
  · exact Or.inr h2.2
  · exact absurd rfl hc

lemma drawCell_mem_fullGrid (d : Nat × Nat) (h1 : d.1 < 40)
    (h2 : d.2 < 30) : drawCell d ∈ fullGridCells := by
  unfold fullGridCells
  rw [List.mem_flatMap]
  refine ⟨d.1, List.mem_range.mpr h1, ?_⟩
  rw [List.mem_map]
  exact ⟨d.2, List.mem_range.mpr h2, by cases d; rfl⟩

/-- C8: a single direction change request processed during play is
rejected (state unchanged) exactly when it is the opposite of the
current direction, and otherwise accepted: the movement vector becomes
the requested key's vector and the key is recorded. -/
theorem C8_direction_request (s : DirState) (k : Key) :
    processKey s k =
      if k = oppositeKey s.last_key_pressed then s
      else ⟨(keyVec k).1, (keyVec k).2, k⟩ := by
  obtain ⟨dx, dy, lk⟩ := s
  cases k <;> cases lk <;> rfl

/-- C5: the collision classification is WallHit exactly when the head
lies outside the rectangle from (0, 0) to (width, height), whatever the
body cells and the length are. -/
theorem C5_wallhit_iff (head : Cell) (w hgt : Int) (body : List Cell)
    (n : Nat) :
    check head w hgt body n = Outcome.WallHit ↔
      (head.x < 0 ∨ head.x ≥ w ∨ head.y < 0 ∨ head.y ≥ hgt) := by
  unfold check
  split_ifs with h1 h2 <;> constructor <;> intro h <;> tauto

/-- C4 counterexample: with the head at (-20, 0), which is both outside
the bounds and a member of the body, and length 2, the check returns
WallHit, not SelfHit, although the head is in the body and the length
exceeds 1 -- so SelfHit is not equivalent to membership plus length. -/
theorem C4_selfhit_iff_counterexample :
    check ⟨-20, 0⟩ 800 600 [⟨-20, 0⟩] 2 ≠ Outcome.SelfHit ∧
    (⟨-20, 0⟩ : Cell) ∈ [(⟨-20, 0⟩ : Cell)] ∧ 1 < 2 := by
  refine ⟨?_, ?_, ?_⟩ <;> decide

/-- C4 (amended): for a head inside the bounds, the check returns
SelfHit exactly when the head is a member of the body and the length
exceeds 1; and for length 1 the check never returns SelfHit, for any
head and any body. -/
theorem C4_selfhit_iff_amended :
    (∀ (head : Cell) (w hgt : Int) (body : List Cell) (n : Nat),
        0 ≤ head.x → head.x < w → 0 ≤ head.y → head.y < hgt →
        (check head w hgt body n = Outcome.SelfHit ↔
          head ∈ body ∧ 1 < n)) ∧
    (∀ (head : Cell) (w hgt : Int) (body : List Cell),
        check head w hgt body 1 ≠ Outcome.SelfHit) := by
  constructor
  · intro head w hgt body n hx0 hxw hy0 hyh
    unfold check
    split_ifs with h1 h2
    · omega
    · exact ⟨fun _ => ⟨h2.2, h2.1⟩, fun _ => rfl⟩
    · constructor
      · intro h
        exact absurd h (by simp)
      · intro h
        exact absurd ⟨h.2, h.1⟩ h2
  · intro head w hgt body
    unfold check
    split_ifs with h1 h2
    · simp
    · omega
    · simp

/-- C4 witness: the amended statement applied at an in-bounds head that
is in the body with length 2, and at length 1. -/
theorem C4_selfhit_iff_witness :
    (check ⟨40, 40⟩ 800 600 [⟨40, 40⟩] 2 = Outcome.SelfHit ↔
      (⟨40, 40⟩ : Cell) ∈ [(⟨40, 40⟩ : Cell)] ∧ 1 < 2) ∧
    check ⟨40, 40⟩ 800 600 [⟨40, 40⟩] 1 ≠ Outcome.SelfHit :=
  ⟨C4_selfhit_iff_amended.1 ⟨40, 40⟩ 800 600 [⟨40, 40⟩] 2
      (by decide) (by decide) (by decide) (by decide),
    C4_selfhit_iff_amended.2 ⟨40, 40⟩ 800 600 [⟨40, 40⟩]⟩

/-- C3 counterexample: with the head at (0, 0), direction Right and a
pending Left key, the tick ignores the turn but the head moves to
(20, 0), not (-20, 0), and the tick's outcome is Ok, not WallHit. -/
theorem C3_left_turn_counterexample :
    tick ⟨0, 0, ⟨20, 0, Key.right⟩, [⟨0, 0⟩], 1, 0, 100, 100, false⟩
        [Key.left] [] =
      some ⟨20, 0, ⟨20, 0, Key.right⟩, [⟨20, 0⟩], 1, 0, 100, 100, false⟩ ∧
    (20 : Int) ≠ -20 ∧
    tickOutcome ⟨0, 0, ⟨20, 0, Key.right⟩, [⟨0, 0⟩], 1, 0, 100, 100, false⟩
        [Key.left] = Outcome.Ok ∧
    Outcome.Ok ≠ Outcome.WallHit := by
  refine ⟨rfl, by decide, rfl, by decide⟩

/-- C3 (amended): for a snake with head at (0, 0) and current direction
Right, a Left turn request in that tick is ignored (the direction state
keeps moving Right) and the head moves to (20, 0) on the same tick,
producing outcome Ok. -/
theorem C3_left_turn_amended :
    tickDir ⟨0, 0, ⟨20, 0, Key.right⟩, [⟨0, 0⟩], 1, 0, 100, 100, false⟩
        [Key.left] = ⟨20, 0, Key.right⟩ ∧
    tick ⟨0, 0, ⟨20, 0, Key.right⟩, [⟨0, 0⟩], 1, 0, 100, 100, false⟩
        [Key.left] [] =
      some ⟨20, 0, ⟨20, 0, Key.right⟩, [⟨20, 0⟩], 1, 0, 100, 100, false⟩ ∧
    tickOutcome ⟨0, 0, ⟨20, 0, Key.right⟩, [⟨0, 0⟩], 1, 0, 100, 100, false⟩
        [Key.left] = Outcome.Ok :=
  ⟨rfl, rfl, rfl⟩

/-- C1: the claimed invariant fails in the code.  With the previous
tick having moved Right (last_key_pressed = right), the event drain of
one tick applies both of the pending changes Up then Left, and the
direction actually used to move the snake that tick is Left -- the
direct opposite of Right: the tick moves the head from x = 400 to
x = 380. -/
theorem C1_reversal_in_one_tick :
    drainEvents ⟨20, 0, Key.right⟩ [Key.up, Key.left] =
      ⟨-20, 0, Key.left⟩ ∧
    tick ⟨400, 300, ⟨20, 0, Key.right⟩, [⟨400, 300⟩], 1, 0, 0, 0, false⟩
        [Key.up, Key.left] [] =
      some ⟨380, 300, ⟨-20, 0, Key.left⟩, [⟨380, 300⟩], 1, 0, 0, 0,
        false⟩ ∧
    oppositeKey Key.right = Key.left :=
  ⟨rfl, rfl, rfl⟩

/-- C2: the claimed SpawnExhausted report does not exist in the code.
When the excluded cells cover every cell the random draws can produce,
the food respawn loop of lines 221-231 never exits: whatever finite
prefix of the random stream is consumed, no cell has been returned. -/
theorem C2_spawn_full_grid_never_returns
    (excluded : List Cell) (draws : List (Nat × Nat))
    (hcov : ∀ d : Nat × Nat, d.1 < 40 → d.2 < 30 → drawCell d ∈ excluded)
    (hvalid : ValidDraws draws) :
    spawnLoop excluded draws = none := by
  induction draws with
  | nil => rfl
  | cons d rest ih =>
      obtain ⟨h1, h2⟩ := hvalid d (List.mem_cons_self _ _)
      unfold spawnLoop
      rw [if_pos (hcov d h1 h2)]
      exact ih fun d2 hd2 => hvalid d2 (List.mem_cons_of_mem _ hd2)

/-- C2 witness: with the full 40 x 30 grid excluded, two concrete valid
draws are both rejected and the loop has produced nothing. -/
theorem C2_spawn_full_grid_witness :
    spawnLoop fullGridCells [(0, 0), (39, 29)] = none :=
  C2_spawn_full_grid_never_returns fullGridCells [(0, 0), (39, 29)]
    (fun d h1 h2 => drawCell_mem_fullGrid d h1 h2)
    (by intro d hd; fin_cases hd <;> exact ⟨by decide, by decide⟩)

/-- C6: the gameplay initialization establishes the segment-count
invariant, and every tick settles the list to exactly the pre-tick
snake_current_length (a head is appended, the oldest element is removed
when the list exceeds the length) while snake_current_length never
decreases and the invariant is re-established for the next tick. -/
theorem C6_length_invariant :
    (∀ (draws : List (Nat × Nat)) (g0 : GameState),
        initGame draws = some g0 → SegInv g0) ∧
    (∀ (g : GameState) (events : List Key) (dr : List (Nat × Nat))
        (g' : GameState), SegInv g → tick g events dr = some g' →
        g'.snake_segments.length = g.snake_current_length ∧
        g.snake_current_length ≤ g'.snake_current_length ∧
        SegInv g') := by
  constructor
  · intro draws g0 h
    unfold initGame at h
    split at h
    · exact Option.noConfusion h
    · injection h with h
      subst h
      exact Or.inr rfl
  · intro g events dr g' hInv htick
    have hlen : (tickSegs g events).length = g.snake_current_length :=
      settle_length _ _ _ hInv
    unfold tick at htick
    split_ifs at htick with h1 h2
    · injection htick with h
      subst h
      exact ⟨hlen, le_refl _, Or.inl hlen⟩
    · cases hs : spawnLoop (tickSegs g events) dr with
      | none => rw [hs] at htick; exact Option.noConfusion htick
      | some c =>
          rw [hs] at htick
          injection htick with h
          subst h
          refine ⟨hlen, Nat.le_succ _, Or.inr ?_⟩
          exact congrArg (fun m => m + 1) hlen
    · injection htick with h
      subst h
      exact ⟨hlen, le_refl _, Or.inl hlen⟩

/-- C6 witness: one concrete tick from a settled length-1 state keeps
one cell, does not shrink the length, and re-establishes the
invariant. -/
theorem C6_length_invariant_witness :
    (GameState.mk 420 300 ⟨20, 0, Key.right⟩ [⟨420, 300⟩] 1 0 0 0
        false).snake_segments.length = 1 ∧
    1 ≤ (GameState.mk 420 300 ⟨20, 0, Key.right⟩ [⟨420, 300⟩] 1 0 0 0
        false).snake_current_length ∧
    SegInv (GameState.mk 420 300 ⟨20, 0, Key.right⟩ [⟨420, 300⟩] 1 0 0 0
        false) :=
  C6_length_invariant.2
    ⟨400, 300, ⟨20, 0, Key.right⟩, [⟨400, 300⟩], 1, 0, 0, 0, false⟩
    [] [] _ (Or.inl rfl) rfl

/-- C10: the gameplay initialization establishes score = 0 and
length = 1, and every tick either leaves score and length unchanged or
-- exactly on food consumption -- increments the length by 1 and the
score by 10 together, so score = 10 * (length - 1) throughout. -/
theorem C10_score_length_relation :
    (∀ (draws : List (Nat × Nat)) (g0 : GameState),
        initGame draws = some g0 → ScoreInv g0) ∧
    (∀ (g : GameState) (events : List Key) (dr : List (Nat × Nat))
        (g' : GameState), ScoreInv g → tick g events dr = some g' →
        ScoreInv g' ∧
        ((g'.current_player_score = g.current_player_score ∧
            g'.snake_current_length = g.snake_current_length) ∨
          (g'.current_player_score = g.current_player_score + 10 ∧
            g'.snake_current_length = g.snake_current_length + 1))) := by
  constructor
  · intro draws g0 h
    unfold initGame at h
    split at h
    · exact Option.noConfusion h
    · injection h with h
      subst h
      exact ⟨le_refl _, rfl⟩
  · intro g events dr g' hInv htick
    obtain ⟨hn1, hsc⟩ := hInv
    unfold tick at htick
    split_ifs at htick with h1 h2
    · injection htick with h
      subst h
      exact ⟨⟨hn1, hsc⟩, Or.inl ⟨rfl, rfl⟩⟩
    · cases hs : spawnLoop (tickSegs g events) dr with
      | none => rw [hs] at htick; exact Option.noConfusion htick
      | some c =>
          rw [hs] at htick
          injection htick with h
          subst h
          refine ⟨⟨Nat.le_succ_of_le hn1, ?_⟩, Or.inr ⟨rfl, rfl⟩⟩
          show g.current_player_score + 10 =
            10 * (g.snake_current_length + 1 - 1)
          omega
    · injection htick with h
      subst h
      exact ⟨⟨hn1, hsc⟩, Or.inl ⟨rfl, rfl⟩⟩

/-- C10 witness: one concrete food-consumption tick increments length
to 2 and score to 10 together, preserving score = 10 * (length - 1). -/
theorem C10_score_length_witness :
    ScoreInv (GameState.mk 420 300 ⟨20, 0, Key.right⟩ [⟨420, 300⟩] 2 10
        40 40 false) ∧
    ((10 = 0 ∧ 2 = 1) ∨ (10 = 0 + 10 ∧ 2 = 1 + 1)) := by
  have h := C10_score_length_relation.2
    ⟨400, 300, ⟨20, 0, Key.right⟩, [⟨400, 300⟩], 1, 0, 420, 300, false⟩
    [] [(2, 2)] _ ⟨le_refl 1, rfl⟩ rfl
  exact ⟨h.1, by simpa using h.2⟩

/-- C9: replay never carries state over -- its result depends only on
the fresh random draws, not on the previous session -- and any session
it starts has score 0, snake length 1, an empty segment list, the
initial Right direction state and the initial head position. -/
theorem C9_replay_fresh_session :
    (∀ (prev prev2 : GameState) (draws : List (Nat × Nat)),
        replayGame prev draws = replayGame prev2 draws) ∧
    (∀ (prev : GameState) (draws : List (Nat × Nat)) (g' : GameState),
        replayGame prev draws = some g' →
        g'.current_player_score = 0 ∧
        g'.snake_current_length = 1 ∧
        g'.snake_segments = [] ∧
        g'.dir = ⟨SNAKE_BLOCK_SIZE, 0, Key.right⟩ ∧
        g'.snake_x = init_snake_x ∧ g'.snake_y = init_snake_y ∧
        g'.game_is_over = false) := by
  constructor
  · intro prev prev2 draws
    rfl
  · intro prev draws g' h
    unfold replayGame initGame at h
    split at h
    · exact Option.noConfusion h
    · injection h with h
      subst h
      exact ⟨rfl, rfl, rfl, rfl, rfl, rfl, rfl⟩

/-- C9 witness: replaying from a finished session with score 70 and
length 8 yields a fresh session with score 0 and length 1. -/
theorem C9_replay_fresh_witness :
    (GameState.mk 400 300 ⟨20, 0, Key.right⟩ [] 1 0 20 0
        false).current_player_score = 0 ∧
    (GameState.mk 400 300 ⟨20, 0, Key.right⟩ [] 1 0 20 0
        false).snake_current_length = 1 ∧
    (GameState.mk 400 300 ⟨20, 0, Key.right⟩ [] 1 0 20 0
        false).snake_segments = [] ∧
    (GameState.mk 400 300 ⟨20, 0, Key.right⟩ [] 1 0 20 0
        false).dir = ⟨SNAKE_BLOCK_SIZE, 0, Key.right⟩ ∧
    (GameState.mk 400 300 ⟨20, 0, Key.right⟩ [] 1 0 20 0
        false).snake_x = init_snake_x ∧
    (GameState.mk 400 300 ⟨20, 0, Key.right⟩ [] 1 0 20 0
        false).snake_y = init_snake_y ∧
    (GameState.mk 400 300 ⟨20, 0, Key.right⟩ [] 1 0 20 0
        false).game_is_over = false :=
  C9_replay_fresh_session.2
    ⟨160, 240, ⟨0, 20, Key.down⟩, [⟨160, 220⟩, ⟨160, 240⟩], 8, 70,
      500, 500, true⟩
    [(1, 0)] _ rfl

lemma drawCell_bounds (d : Nat × Nat) (h1 : d.1 < 40) (h2 : d.2 < 30) :
    0 ≤ (drawCell d).x ∧ (drawCell d).x < SCREEN_WIDTH ∧
    0 ≤ (drawCell d).y ∧ (drawCell d).y < SCREEN_HEIGHT := by
  simp only [drawCell, SCREEN_WIDTH, SCREEN_HEIGHT, SNAKE_BLOCK_SIZE]
  omega

/-- C7: the spawn loop never returns a cell of its excluded list; the
gameplay initialization places the food off the snake; and every tick
preserves the property that the food cell is on no snake cell (on a
consumption tick the respawned cell avoids the settled segments, which
include the new head). -/
theorem C7_food_never_on_snake :
    (∀ (excluded : List Cell) (draws : List (Nat × Nat)) (c : Cell),
        spawnLoop excluded draws = some c → c ∉ excluded) ∧
    (∀ (draws : List (Nat × Nat)) (g0 : GameState),
        ValidDraws draws → initGame draws = some g0 → FoodInv g0) ∧
    (∀ (g : GameState) (events : List Key) (dr : List (Nat × Nat))
        (g' : GameState), FoodInv g → ValidDraws dr →
        tick g events dr = some g' → FoodInv g') := by
  refine ⟨?_, ?_, ?_⟩
  · intro excluded draws c h
    exact spawnLoop_not_excluded h
  · intro draws g0 hv h
    unfold initGame at h
    cases hs : spawnLoop [⟨init_snake_x, init_snake_y⟩] draws with
    | none => rw [hs] at h; exact Option.noConfusion h
    | some c =>
        rw [hs] at h
        injection h with h
        subst h
        have hne := spawnLoop_not_excluded hs
        obtain ⟨d, hd, hcd⟩ := spawnLoop_mem_draws hs
        subst hcd
        obtain ⟨hd1, hd2⟩ := hv d hd
        have hb := drawCell_bounds d hd1 hd2
        refine ⟨by simp, ?_, le_refl 1, hb.1, hb.2.1, hb.2.2.1, hb.2.2.2⟩
        intro heq
        have heq2 : drawCell d = (⟨init_snake_x, init_snake_y⟩ : Cell) := heq
        exact hne (List.mem_singleton.mpr heq2)
  · intro g events dr g' hInv hdr htick
    obtain ⟨hfs, hfh, hn1, hfx0, hfxW, hfy0, hfyH⟩ := hInv
    unfold tick at htick
    split_ifs at htick with hover heat
    · injection htick with h
      subst h
      have hover2 : check (tickHead g events) SCREEN_WIDTH SCREEN_HEIGHT
          (tickSegs g events).dropLast g.snake_current_length ≠
            Outcome.Ok := hover
      have hne : foodCell g ≠ tickHead g events := by
        intro heq
        rcases check_ne_ok hover2 with hw | hb
        · rw [← heq] at hw
          simp only [foodCell] at hw
          simp only [SCREEN_WIDTH] at hfxW hw
          simp only [SCREEN_HEIGHT] at hfyH hw
          omega
        · rw [← heq] at hb
          exact hfs (mem_dropLast_settle hb)
      refine ⟨?_, hne, hn1, hfx0, hfxW, hfy0, hfyH⟩
      intro hmem
      rcases mem_settle hmem with hm | hm
      · exact hfs hm
      · exact hne hm
    · cases hs : spawnLoop (tickSegs g events) dr with
      | none => rw [hs] at htick; exact Option.noConfusion htick
      | some c =>
          rw [hs] at htick
          injection htick with h
          subst h
          have hcs := spawnLoop_not_excluded hs
          obtain ⟨d, hd, hcd⟩ := spawnLoop_mem_draws hs
          subst hcd
          obtain ⟨hd1, hd2⟩ := hdr d hd
          have hb := drawCell_bounds d hd1 hd2
          refine ⟨hcs, ?_, Nat.le_succ_of_le hn1, hb.1, hb.2.1,
            hb.2.2.1, hb.2.2.2⟩
          intro heq
          have heq2 : drawCell d = tickHead g events := heq
          have hmem : drawCell d ∈ tickSegs g events := by
            rw [heq2]
            exact head_mem_settle (tickHead g events) g.snake_segments
              g.snake_current_length hn1
          exact hcs hmem
    · injection htick with h
      subst h
      have hne : foodCell g ≠ tickHead g events := by
        intro heq
        exact heat ⟨(congrArg Cell.x heq).symm, (congrArg Cell.y heq).symm⟩
      refine ⟨?_, hne, hn1, hfx0, hfxW, hfy0, hfyH⟩
      intro hmem
      rcases mem_settle hmem with hm | hm
      · exact hfs hm
      · exact hne hm

/-- C7 witness: a concrete spawn avoids its excluded list, and one
concrete tick preserves the food invariant. -/
theorem C7_food_never_on_snake_witness :
    ((⟨20, 40⟩ : Cell) ∉ [(⟨0, 0⟩ : Cell)]) ∧
    FoodInv (GameState.mk 420 300 ⟨20, 0, Key.right⟩ [⟨420, 300⟩] 1 0 0 0
      false) :=
  ⟨C7_food_never_on_snake.1 [⟨0, 0⟩] [(1, 2)] ⟨20, 40⟩ rfl,
    C7_food_never_on_snake.2.2
      ⟨400, 300, ⟨20, 0, Key.right⟩, [⟨400, 300⟩], 1, 0, 0, 0, false⟩
      [] [] _
      (by unfold FoodInv; refine ⟨?_, ?_, ?_, ?_, ?_, ?_, ?_⟩ <;> decide)
      (fun d hd => absurd hd (List.not_mem_nil d)) rfl⟩

end Snake
